import Mathlib

/-!
Verification development for the QA dashboard aggregation core
(src/qa_dashboard_generator.py, class ComprehensiveQADashboard).

The unified table is embedded shallowly: a row of the pandas DataFrame
becomes a structure of cells, where a cell is either a numeric value, a
string value, or missing (NaN).  The aggregation methods of the source,
which only read the table, become pure Lean functions of the table and
the week list; the loader becomes a function returning Except.  Python
round (banker's rounding, round half to even) and the percentage
formulas are modelled over the rationals.
-/

/-- A spreadsheet cell after pandas ingestion: a numeric value, a string
value, or missing (NaN / absent). -/
inductive Cell where
  | num (q : ℚ)
  | str (s : String)
  | missing
deriving DecidableEq

/-- Whether a cell is missing (pandas isna). -/
def Cell.isMissing : Cell → Bool
  | Cell.missing => true
  | _ => false

/-- One row of the unified table.  Field names follow the canonical
column names of the source (Semana, PM, Web/App, Desarrollador, Sitio,
Plataforma, Prioridad en la Tarjeta, Descripción, Aceptado/Rechazado,
Número de rechazos).  The Semana column is always a string because
load_all_sheets assigns the sheet name to every row.  The two date
columns are omitted: no aggregation method reads them. -/
structure RawRow where
  semana : String
  pm : Cell
  webApp : Cell
  desarrollador : Cell
  sitio : Cell
  plataforma : Cell
  prioridad : Cell
  descripcion : Cell
  decision : Cell
  numRechazos : Cell
deriving DecidableEq

/-- The unified table: the concatenation of all week sheets. -/
abbrev Table := List RawRow

/-- Series.fillna with a string default: missing becomes the default,
any non-missing value is kept unchanged. -/
def fillnaCell (c : Cell) (d : String) : Cell :=
  if c.isMissing then Cell.str d else c

/-- Value of a decimal digit list, if every character is a digit. -/
def decDigits? (l : List Char) : Option Nat :=
  l.foldl (fun acc c =>
    acc.bind fun n => if c.isDigit then some (10 * n + (c.toNat - 48)) else none)
    (some 0)

/-- Model of the numeric-string parsing performed by pandas to_numeric:
an optional sign followed by decimal digits with an optional fractional
part.  Exponent notation is not modelled; every claim only needs that
plain numerals parse and that alphabetic strings such as "abc" do not. -/
def parseRat? (s : String) : Option ℚ :=
  let p : ℚ × List Char :=
    match s.toList with
    | '-' :: rest => (-1, rest)
    | '+' :: rest => (1, rest)
    | l => (1, l)
  match p.2.splitOn '.' with
  | [ip] =>
      if ip.isEmpty then none
      else (decDigits? ip).map fun n => p.1 * n
  | [ip, fp] =>
      if ip.isEmpty && fp.isEmpty then none
      else (decDigits? ip).bind fun n =>
        (decDigits? fp).map fun m => p.1 * ((n : ℚ) + (m : ℚ) / 10 ^ fp.length)
  | _ => none

/-- pandas to_numeric with errors='coerce' on one cell: numeric cells
pass through, numeric-looking strings parse, everything else (including
missing) becomes NaN, i.e. none. -/
def pdToNumeric : Cell → Option ℚ
  | Cell.num q => some q
  | Cell.str s => parseRat? s
  | Cell.missing => none

/-- Row-level model of clean_data: coerce the rejection count to a
number with missing/non-numeric defaulting to 0, default a missing
decision to PENDIENTE, default a missing developer to the sentinel.
The column-level branches of the source (creating an absent column as
a constant default) coincide with applying these cell defaults to
all-missing cells. -/
def cleanRow (r : RawRow) : RawRow :=
  { r with
    numRechazos := Cell.num ((pdToNumeric r.numRechazos).getD 0)
    decision := fillnaCell r.decision "PENDIENTE"
    desarrollador := fillnaCell r.desarrollador "Desarrollador Desconocido" }

/-- clean_data over the whole unified table. -/
def clean_data (t : Table) : Table := t.map cleanRow

/-- Round a rational to the nearest integer, ties to even: the rounding
of Python round on exactly represented values. -/
def roundHalfEven (q : ℚ) : ℤ :=
  let f := ⌊q⌋
  let r := q - (f : ℚ)
  if r < 1 / 2 then f
  else if 1 / 2 < r then f + 1
  else if f % 2 = 0 then f else f + 1

/-- Python round(x, 2) modelled on the rationals: round half to even at
the second decimal. -/
def pyRound2 (q : ℚ) : ℚ := (roundHalfEven (q * 100) : ℚ) / 100

/-- Round a rational to the nearest integer, ties away from zero
upward.  Follows the words of the specification (round half-up); used
only to compare the specified rounding with the rounding of the
source. -/
def roundHalfUp (q : ℚ) : ℤ := ⌊q + 1 / 2⌋

/-- Rounding half-up at 2 decimals, following the words of the
specification. -/
def specHalfUpRound2 (q : ℚ) : ℚ := (roundHalfUp (q * 100) : ℚ) / 100

/-- The rejection-percentage formula of the source, shared by the
channel, developer and weekly statistics:
round((rechazadas / total * 100) if total > 0 else 0, 2). -/
def pctRechazo (rechazadas total : Nat) : ℚ :=
  pyRound2 (if 0 < total then (rechazadas : ℚ) / (total : ℚ) * 100 else 0)

example : pyRound2 (25 / 8) = 312 / 100 := by
  norm_num [pyRound2, roundHalfEven]
example : specHalfUpRound2 (25 / 8) = 313 / 100 := by
  norm_num [specHalfUpRound2, roundHalfUp]
example : parseRat? "abc" = none := by decide
example : parseRat? "-5" = some (-5) := by
  simp [parseRat?, decDigits?, List.splitOn]
example : parseRat? "3.5" = some (7 / 2) := by
  simp [parseRat?, decDigits?, List.splitOn]
  norm_num

/-- Distinct values of a list in order of first appearance: the order
contract of pandas Series.unique. -/
def uniqueFirst {α : Type} [DecidableEq α] : List α → List α
  | [] => []
  | a :: l => a :: uniqueFirst (l.filter fun x => x ≠ a)
termination_by l => l.length
decreasing_by
  simpa using Nat.lt_succ_of_le (List.length_filter_le _ _)

/-- Insert an element into a descending-sorted list, after every element
whose key is at least as large: the insertion step of a stable
descending sort. -/
def insertDescBy {α : Type} (f : α → Nat) (x : α) : List α → List α
  | [] => [x]
  | y :: l => if f y < f x then x :: y :: l else y :: insertDescBy f x l

/-- Stable sort, descending by a natural-number key, processing the
input left to right: the behaviour of Python sorted(..., key=...,
reverse=True), which is documented to be stable. -/
def stableSortDescBy {α : Type} (f : α → Nat) (l : List α) : List α :=
  l.foldl (fun acc x => insertDescBy f x acc) []

/-- pandas Series.value_counts().to_dict(): counts of the distinct
non-missing values, ordered by count descending (stable on ties). -/
def value_counts (l : List Cell) : List (Cell × Nat) :=
  let vals := l.filter fun c => ¬ c.isMissing
  stableSortDescBy (fun p => p.2)
    ((uniqueFirst vals).map fun v => (v, (vals.filter fun x => x = v).length))

/-- Python dict assignment acc[k] = v on an association list: replace
the value in place if the key is present, append otherwise. -/
def upsertAssoc : List (Cell × Nat) → Cell → Nat → List (Cell × Nat)
  | [], k, v => [(k, v)]
  | (k0, v0) :: rest, k, v =>
      if k0 = k then (k0, v) :: rest else (k0, v0) :: upsertAssoc rest k v

/-- Whether the first character list is an initial segment of the
second. -/
def startsWithList : List Char → List Char → Bool
  | [], _ => true
  | _ :: _, [] => false
  | a :: l, b :: m => a == b && startsWithList l m

/-- Whether pat occurs as a contiguous run inside l: the Python
substring membership test pat in l. -/
def hasInfix (pat : List Char) : List Char → Bool
  | [] => pat.isEmpty
  | a :: l => startsWithList pat (a :: l) || hasInfix pat l

/-- Whether a sheet name matches the week-partition naming convention:
the phrase tarjetas semana occurs in the lowercased sheet name. -/
def matchesWeekSheet (name : String) : Bool :=
  hasInfix "tarjetas semana".toList (name.toList.map Char.toLower)

/-- load_all_sheets: keep the sheets whose name matches the convention,
tag every row of a kept sheet with the sheet name as its Semana value,
concatenate, and clean.  pd.concat of an empty list raises, so when no
sheet matches, the loader fails with the pandas error message instead
of producing an empty table. -/
def load_all_sheets (sheets : List (String × List RawRow)) :
    Except String (Table × List String) :=
  let matched := sheets.filter fun s => matchesWeekSheet s.1
  if matched.isEmpty then
    Except.error "No objects to concatenate"
  else
    Except.ok
      (clean_data ((matched.map fun s => s.2.map fun r => { r with semana := s.1 }).flatten),
       matched.map fun s => s.1)

/-- Rows of one week: self.all_data[self.all_data[Semana] == semana]. -/
def weekData (t : Table) (semana : String) : Table :=
  t.filter fun r => r.semana == semana

/-- Count of rows of a table whose decision cell equals the given
string: len(df[df[Aceptado/Rechazado] == d]). -/
def countDecision (t : Table) (d : String) : Nat :=
  (t.filter fun r => r.decision = Cell.str d).length

/-- Per-week entry of get_qa_statistics_complete. -/
structure QAWeekStats where
  tarjetas_por_qa : List (Cell × Nat)
  rechazadas_por_qa : List (Cell × Nat)
  total_semana : Nat
  total_rechazadas_semana : Nat
deriving DecidableEq

/-- Historical per-reviewer entry of get_qa_statistics_complete. -/
structure QAHistEntry where
  total_revisadas : Nat
  total_rechazadas : Nat
  promedio_semanal : ℚ
deriving DecidableEq

/-- Result shape of get_qa_statistics_complete. -/
structure QAStats where
  weekly : List (String × QAWeekStats)
  historical_por_qa : List (Cell × QAHistEntry)
  historical_total_rechazadas : Nat
  historical_total_revisadas : Nat
deriving DecidableEq

/-- The reviewers of a table: df[PM].dropna().unique(), non-missing PM
cells in order of first appearance. -/
def pmValues (t : Table) : List Cell :=
  uniqueFirst ((t.map fun r => r.pm).filter fun c => ¬ c.isMissing)

/-- Per-week block of get_qa_statistics_complete: card count and
rejected count per reviewer, week total and week rejected total. -/
def qaWeekStats (t : Table) (semana : String) : QAWeekStats :=
  let wd := weekData t semana
  let qas := pmValues wd
  { tarjetas_por_qa := qas.map fun qa => (qa, (wd.filter fun r => r.pm = qa).length)
    rechazadas_por_qa := qas.map fun qa =>
      (qa, ((wd.filter fun r => r.pm = qa).filter fun r =>
        r.decision = Cell.str "RECHAZADO").length)
    total_semana := wd.length
    total_rechazadas_semana := countDecision wd "RECHAZADO" }

/-- Number of distinct Semana values present in the table:
len(self.all_data[Semana].unique()). -/
def distinctWeeks (t : Table) : Nat :=
  (uniqueFirst (t.map fun r => r.semana)).length

/-- Historical weekly average of get_qa_statistics_complete, the same
expression for every reviewer: len(all_data[Semana].unique()) /
len(weeks_list) if the week list is nonempty, else 0. -/
def qaPromedioSemanal (t : Table) (ws : List String) : ℚ :=
  if 0 < ws.length then (distinctWeeks t : ℚ) / (ws.length : ℚ) else 0

/-- get_qa_statistics_complete over the unified table and week list. -/
def get_qa_statistics_complete (t : Table) (ws : List String) : QAStats :=
  { weekly := ws.map fun s => (s, qaWeekStats t s)
    historical_por_qa := (pmValues t).map fun qa =>
      let qaData := t.filter fun r => r.pm = qa
      (qa, { total_revisadas := qaData.length
             total_rechazadas := countDecision qaData "RECHAZADO"
             promedio_semanal := qaPromedioSemanal t ws })
    historical_total_rechazadas := countDecision t "RECHAZADO"
    historical_total_revisadas := t.length }

/-- Per-week entry of the channel statistics (Web or App). -/
structure ChannelWeekStats where
  revisadas : Nat
  rechazadas : Nat
  aceptadas : Nat
  porcentaje_rechazo : ℚ
deriving DecidableEq

/-- Historical block of the channel statistics. -/
structure ChannelHistStats where
  total_revisadas : Nat
  total_rechazadas : Nat
  total_aceptadas : Nat
  porcentaje_rechazo : ℚ
deriving DecidableEq

/-- Result shape of get_web_statistics_complete and
get_app_statistics_complete. -/
structure ChannelStats where
  weekly : List (String × ChannelWeekStats)
  historical : ChannelHistStats
deriving DecidableEq

/-- Rows of one channel: df[df[Web/App] == channel]. -/
def channelData (t : Table) (channel : String) : Table :=
  t.filter fun r => r.webApp = Cell.str channel

/-- One weekly entry of the channel statistics: reviewed, rejected and
accepted counts over the rows of the week and channel, and the
rejection percentage. -/
def channelWeekStats (t : Table) (channel semana : String) : ChannelWeekStats :=
  let wd := channelData (weekData t semana) channel
  { revisadas := wd.length
    rechazadas := countDecision wd "RECHAZADO"
    aceptadas := countDecision wd "APROBADO"
    porcentaje_rechazo := pctRechazo (countDecision wd "RECHAZADO") wd.length }

/-- Historical block of the channel statistics, over all rows of the
channel. -/
def channelHistStats (t : Table) (channel : String) : ChannelHistStats :=
  let cd := channelData t channel
  { total_revisadas := cd.length
    total_rechazadas := countDecision cd "RECHAZADO"
    total_aceptadas := countDecision cd "APROBADO"
    porcentaje_rechazo := pctRechazo (countDecision cd "RECHAZADO") cd.length }

/-- Channel statistics for one channel value; get_web_statistics_complete
and get_app_statistics_complete of the source are this routine at
Web and App (their bodies are textually identical up to that value). -/
def channelStatisticsComplete (t : Table) (ws : List String) (channel : String) :
    ChannelStats :=
  { weekly := ws.map fun s => (s, channelWeekStats t channel s)
    historical := channelHistStats t channel }

/-- get_web_statistics_complete. -/
def get_web_statistics_complete (t : Table) (ws : List String) : ChannelStats :=
  channelStatisticsComplete t ws "Web"

/-- get_app_statistics_complete. -/
def get_app_statistics_complete (t : Table) (ws : List String) : ChannelStats :=
  channelStatisticsComplete t ws "App"

/-- Python str.capitalize: first character uppercased, the rest
lowercased. -/
def pyCapitalize (s : String) : String :=
  match s.toList with
  | [] => ""
  | c :: cs => String.mk (c.toUpper :: cs.map Char.toLower)

/-- Historical per-developer entry of get_dev_statistics. -/
structure DevHistStats where
  total_tarjetas : Nat
  rechazadas : Nat
  aceptadas : Nat
  promedio_semanal_historico : ℚ
  porcentaje_rechazo : ℚ
  semanas_activo : Nat
deriving DecidableEq

/-- Per-week per-developer entry of get_dev_statistics, with the
detailed card list (description and decision, missing cells filled
with Desconocido). -/
structure DevWeekStats where
  total_tarjetas : Nat
  rechazadas : Nat
  aceptadas : Nat
  porcentaje_rechazo : ℚ
  cards : List (Cell × Cell)
deriving DecidableEq

/-- The developers of the channel-filtered table:
filtered_data[Desarrollador].dropna().unique(), in order of first
appearance. -/
def devValues (t : Table) (channel : String) : List Cell :=
  uniqueFirst (((channelData t channel).map fun r => r.desarrollador).filter
    fun c => ¬ c.isMissing)

/-- Rows of one developer within the channel-filtered table. -/
def devData (t : Table) (channel : String) (dev : Cell) : Table :=
  (channelData t channel).filter fun r => r.desarrollador = dev

/-- One weekly entry for a developer: counts, percentage and the card
list for that week. -/
def devWeekStats (dd : Table) (semana : String) : DevWeekStats :=
  let wdd := weekData dd semana
  { total_tarjetas := wdd.length
    rechazadas := countDecision wdd "RECHAZADO"
    aceptadas := countDecision wdd "APROBADO"
    porcentaje_rechazo := pctRechazo (countDecision wdd "RECHAZADO") wdd.length
    cards := wdd.map fun r =>
      (fillnaCell r.descripcion "Desconocido", fillnaCell r.decision "Desconocido") }

/-- Weekly summary for a developer: one entry per week of the week
list, kept only when the developer has at least one card that week
(the source inserts into the dict only under total_week > 0). -/
def devWeeklySummary (dd : Table) (ws : List String) : List (String × DevWeekStats) :=
  (ws.map fun s => (s, devWeekStats dd s)).filter fun p => 0 < p.2.total_tarjetas

/-- Historical block for one developer: totals, weekly average
(total / number of week partitions, rounded to 2 decimals, 0 when no
weeks), rejection percentage, and number of distinct active weeks. -/
def devHistStats (dd : Table) (ws : List String) : DevHistStats :=
  let total := dd.length
  let rech := countDecision dd "RECHAZADO"
  { total_tarjetas := total
    rechazadas := rech
    aceptadas := countDecision dd "APROBADO"
    promedio_semanal_historico :=
      pyRound2 (if 0 < ws.length then (total : ℚ) / (ws.length : ℚ) else 0)
    porcentaje_rechazo := pctRechazo rech total
    semanas_activo := distinctWeeks dd }

/-- The per-developer historical statistics before the final sort, in
the insertion order of the source (first appearance of the developer
in the channel-filtered data). -/
def devStatsUnsorted (t : Table) (ws : List String) (devType : String) :
    List (Cell × DevHistStats) :=
  let channel := pyCapitalize devType
  (devValues t channel).map fun dev => (dev, devHistStats (devData t channel dev) ws)

/-- get_dev_statistics: the historical per-developer statistics sorted
stably by total card count descending, paired with the per-developer
weekly details. -/
def get_dev_statistics (t : Table) (ws : List String) (devType : String) :
    List (Cell × DevHistStats) × List (Cell × List (String × DevWeekStats)) :=
  let channel := pyCapitalize devType
  (stableSortDescBy (fun p => p.2.total_tarjetas) (devStatsUnsorted t ws devType),
   (devValues t channel).map fun dev =>
     (dev, devWeeklySummary (devData t channel dev) ws))

/-- Count of rows of a table whose priority cell equals the given
string. -/
def countPrioridad (t : Table) (p : String) : Nat :=
  (t.filter fun r => r.prioridad = Cell.str p).length

/-- groupby(Semana).size() of a table: the per-week row counts, one
entry per distinct week present (the group order does not matter to
the source, which only takes the mean). -/
def groupSizesBySemana (t : Table) : List Nat :=
  (uniqueFirst (t.map fun r => r.semana)).map fun s => (weekData t s).length

/-- Series.mean of a list of counts, as a rational; only applied to
nonempty lists by the source, which guards with .empty. -/
def seriesMean (l : List Nat) : ℚ := (l.sum : ℚ) / (l.length : ℚ)

/-- One priority level of get_pm_statistics_complete. -/
structure PrioridadStats where
  total : Nat
  promedio_semanal : ℚ
deriving DecidableEq

/-- Per-week entry of get_pm_statistics_complete. -/
structure PMWeekStats where
  alta : Nat
  media : Nat
  baja : Nat
  web : Nat
  app : Nat
deriving DecidableEq

/-- Result shape of get_pm_statistics_complete. -/
structure PMStats where
  alta : PrioridadStats
  media : PrioridadStats
  baja : PrioridadStats
  promedio_semanal_web : ℚ
  promedio_semanal_app : ℚ
  promedio_semanal_total : ℚ
  por_semana : List (String × PMWeekStats)
deriving DecidableEq

/-- get_pm_statistics_complete: priority totals with weekly averages
(left at 0 when no week was loaded), mean weekly Web and App counts
(mean of the per-week grouped sizes, 0 when the group is empty), and
the per-week breakdown. -/
def get_pm_statistics_complete (t : Table) (ws : List String) : PMStats :=
  let altaTotal := countPrioridad t "Alta"
  let mediaTotal := countPrioridad t "Media"
  let bajaTotal := countPrioridad t "Baja"
  let numSemanas := ws.length
  let webSizes := groupSizesBySemana (channelData t "Web")
  let appSizes := groupSizesBySemana (channelData t "App")
  let webProm : ℚ :=
    if 0 < numSemanas then
      if webSizes.isEmpty then 0 else pyRound2 (seriesMean webSizes)
    else 0
  let appProm : ℚ :=
    if 0 < numSemanas then
      if appSizes.isEmpty then 0 else pyRound2 (seriesMean appSizes)
    else 0
  { alta := { total := altaTotal
              promedio_semanal :=
                if 0 < numSemanas then pyRound2 ((altaTotal : ℚ) / numSemanas) else 0 }
    media := { total := mediaTotal
               promedio_semanal :=
                 if 0 < numSemanas then pyRound2 ((mediaTotal : ℚ) / numSemanas) else 0 }
    baja := { total := bajaTotal
              promedio_semanal :=
                if 0 < numSemanas then pyRound2 ((bajaTotal : ℚ) / numSemanas) else 0 }
    promedio_semanal_web := webProm
    promedio_semanal_app := appProm
    promedio_semanal_total := if 0 < numSemanas then pyRound2 (webProm + appProm) else 0
    por_semana := ws.map fun s =>
      let wd := weekData t s
      (s, { alta := countPrioridad wd "Alta"
            media := countPrioridad wd "Media"
            baja := countPrioridad wd "Baja"
            web := (channelData wd "Web").length
            app := (channelData wd "App").length }) }

/-- Per-site entry of get_site_statistics_complete. -/
structure SiteStats where
  total : Nat
  web : Nat
  app : Nat
  rechazadas : Nat
  aceptadas : Nat
  promedio_por_semana : ℚ
  promedio_rechazadas_semana : ℚ
  promedio_aceptadas_semana : ℚ
  plataformas : List (Cell × Nat)
  semanas_activo : Nat
deriving DecidableEq

/-- get_site_statistics_complete: per distinct non-missing site, totals
and per-week averages divided by the number of distinct weeks the site
appears in, with a platform breakdown; sorted stably by total
descending. -/
def get_site_statistics_complete (t : Table) : List (Cell × SiteStats) :=
  let sitios := uniqueFirst ((t.map fun r => r.sitio).filter fun c => ¬ c.isMissing)
  stableSortDescBy (fun p => p.2.total)
    (sitios.map fun sitio =>
      let sd := t.filter fun r => r.sitio = sitio
      let total := sd.length
      let rech := countDecision sd "RECHAZADO"
      let acep := countDecision sd "APROBADO"
      let numSemanas := distinctWeeks sd
      (sitio,
       { total := total
         web := (channelData sd "Web").length
         app := (channelData sd "App").length
         rechazadas := rech
         aceptadas := acep
         promedio_por_semana :=
           pyRound2 (if 0 < numSemanas then (total : ℚ) / numSemanas else 0)
         promedio_rechazadas_semana :=
           pyRound2 (if 0 < numSemanas then (rech : ℚ) / numSemanas else 0)
         promedio_aceptadas_semana :=
           pyRound2 (if 0 < numSemanas then (acep : ℚ) / numSemanas else 0)
         plataformas := value_counts (sd.map fun r => r.plataforma)
         semanas_activo := numSemanas }))

/-- get_platform_report: value_counts of the platform column turned
into a dict, with a loop that maps a NaN key to Sin especificar.
Because value_counts already drops NaN (pandas dropna defaults to
true), that branch can never fire; the loop is kept as in the
source. -/
def get_platform_report (t : Table) : List (Cell × Nat) :=
  (value_counts (t.map fun r => r.plataforma)).foldl
    (fun acc kv =>
      upsertAssoc acc
        (if kv.1.isMissing then Cell.str "Sin especificar" else kv.1) kv.2)
    []

/-- get_cards_by_week: the (description, decision) pairs of the rows of
one week, missing cells filled with Desconocido.  The source's branch
for an absent description column is unreachable after clean_data,
which always creates the column. -/
def get_cards_by_week (t : Table) (week : String) : List (Cell × Cell) :=
  (weekData t week).map fun r =>
    (fillnaCell r.descripcion "Desconocido", fillnaCell r.decision "Desconocido")

/-- The instance state read by every aggregation method: the unified
table and the week list, built once at load time. -/
structure DashState where
  all_data : Table
  weeks_list : List String
deriving DecidableEq

/-- The full summary object assembled by generate_all_statistics. -/
structure AllStats where
  qa : QAStats
  web : ChannelStats
  app : ChannelStats
  dev_web : List (Cell × DevHistStats)
  dev_app : List (Cell × DevHistStats)
  dev_web_weekly_details : List (Cell × List (String × DevWeekStats))
  dev_app_weekly_details : List (Cell × List (String × DevWeekStats))
  pm : PMStats
  sites : List (Cell × SiteStats)
  platforms : List (Cell × Nat)
  weeks_list : List String
  total_weeks : Nat
  cards_by_week : List (String × List (Cell × Cell))
deriving DecidableEq

/-- generate_all_statistics: every aggregation method of the source
only reads the instance state, so the embedding threads the state
through explicitly and returns it next to the summary. -/
def generate_all_statistics (s : DashState) : DashState × AllStats :=
  let t := s.all_data
  let ws := s.weeks_list
  (s,
   { qa := get_qa_statistics_complete t ws
     web := get_web_statistics_complete t ws
     app := get_app_statistics_complete t ws
     dev_web := (get_dev_statistics t ws "web").1
     dev_app := (get_dev_statistics t ws "app").1
     dev_web_weekly_details := (get_dev_statistics t ws "web").2
     dev_app_weekly_details := (get_dev_statistics t ws "app").2
     pm := get_pm_statistics_complete t ws
     sites := get_site_statistics_complete t
     platforms := get_platform_report t
     weeks_list := ws
     total_weeks := ws.length
     cards_by_week := ws.map fun w => (w, get_cards_by_week t w) })

/-- A row with every optional cell missing, used to build the concrete
tables of the witnesses and counterexamples. -/
def exRowBlank : RawRow :=
  { semana := ""
    pm := Cell.missing
    webApp := Cell.missing
    desarrollador := Cell.missing
    sitio := Cell.missing
    plataforma := Cell.missing
    prioridad := Cell.missing
    descripcion := Cell.missing
    decision := Cell.missing
    numRechazos := Cell.missing }

/-- Concrete table for the reviewer-average witness: one week, one
reviewer. -/
def tExC3 : Table := [{ exRowBlank with semana := "s1", pm := Cell.str "Ana" }]

/-- Week list of the reviewer-average witness. -/
def wsExC3 : List String := ["s1"]

/-- The historical entry produced for reviewer Ana on tExC3. -/
def eExC3 : QAHistEntry :=
  { total_revisadas := 1
    total_rechazadas := 0
    promedio_semanal := qaPromedioSemanal tExC3 wsExC3 }

/-- Concrete table for the platform report: one row with a missing
platform and one row with platform iOS. -/
def tExC2 : Table :=
  [exRowBlank, { exRowBlank with plataforma := Cell.str "iOS" }]

/-- Concrete table with a single missing-reviewer row in week s1. -/
def tExC7 : Table := [{ exRowBlank with semana := "s1" }]

/-- A Web row of week s1 with no decision recorded. -/
def rowWebPend : RawRow :=
  { exRowBlank with semana := "s1", webApp := Cell.str "Web" }

/-- Concrete table with 32 Web cards in week s1, exactly one of them
rejected: the rejection ratio is 1/32 = 3.125 percent, a tie at the
second decimal that separates rounding half-up from the rounding of
the source. -/
def tExC1 : Table :=
  { exRowBlank with
      semana := "s1", webApp := Cell.str "Web",
      decision := Cell.str "RECHAZADO" } :: List.replicate 31 rowWebPend

/-! Helper lemmas. -/

theorem roundHalfEven_nonneg {q : ℚ} (h : 0 ≤ q) : 0 ≤ roundHalfEven q := by
  have hf : (0 : ℤ) ≤ ⌊q⌋ := Int.floor_nonneg.mpr h
  unfold roundHalfEven
  dsimp only
  split
  · exact hf
  · split
    · omega
    · split
      · exact hf
      · omega

theorem roundHalfEven_le {q : ℚ} {B : ℤ} (h : q ≤ (B : ℚ)) : roundHalfEven q ≤ B := by
  have hf : ⌊q⌋ ≤ B := by
    have := Int.floor_le_floor h
    simpa using this
  have hstrict : ¬(q - (⌊q⌋ : ℚ) < 1 / 2) → ⌊q⌋ < B := by
    intro hr
    have h1 : (⌊q⌋ : ℚ) < q := by
      have : (1 : ℚ) / 2 ≤ q - (⌊q⌋ : ℚ) := le_of_not_lt hr
      linarith
    have h2 : (⌊q⌋ : ℚ) < (B : ℚ) := lt_of_lt_of_le h1 h
    exact_mod_cast h2
  unfold roundHalfEven
  dsimp only
  split
  · exact hf
  · rename_i hr
    have hlt := hstrict hr
    split
    · omega
    · split
      · exact hf
      · omega

theorem pyRound2_nonneg {q : ℚ} (h : 0 ≤ q) : 0 ≤ pyRound2 q := by
  unfold pyRound2
  have h1 : (0 : ℤ) ≤ roundHalfEven (q * 100) := roundHalfEven_nonneg (by positivity)
  have h2 : (0 : ℚ) ≤ (roundHalfEven (q * 100) : ℚ) := by exact_mod_cast h1
  positivity

theorem pyRound2_le_100 {q : ℚ} (h : q ≤ 100) : pyRound2 q ≤ 100 := by
  unfold pyRound2
  have h1 : roundHalfEven (q * 100) ≤ (10000 : ℤ) := by
    apply roundHalfEven_le
    push_cast
    linarith
  have h2 : (roundHalfEven (q * 100) : ℚ) ≤ 10000 := by exact_mod_cast h1
  linarith

theorem pyRound2_zero : pyRound2 0 = 0 := by
  norm_num [pyRound2, roundHalfEven]

theorem pctRechazo_nonneg (r t : Nat) : 0 ≤ pctRechazo r t := by
  unfold pctRechazo
  apply pyRound2_nonneg
  split
  · positivity
  · norm_num

theorem pctRechazo_le_100 {r t : Nat} (h : r ≤ t) : pctRechazo r t ≤ 100 := by
  unfold pctRechazo
  apply pyRound2_le_100
  split
  · rename_i ht
    have htq : (0 : ℚ) < (t : ℚ) := by exact_mod_cast ht
    have hrq : (r : ℚ) ≤ (t : ℚ) := by exact_mod_cast h
    rw [div_mul_eq_mul_div, div_le_iff₀ htq]
    nlinarith
  · norm_num

theorem pctRechazo_of_zero (r : Nat) : pctRechazo r 0 = 0 := by
  simp [pctRechazo, pyRound2_zero]

theorem filter_two_disjoint_length_le {α : Type} (l : List α) (p q : α → Bool)
    (h : ∀ x ∈ l, ¬(p x = true ∧ q x = true)) :
    (l.filter p).length + (l.filter q).length ≤ l.length := by
  induction l with
  | nil => simp
  | cons a l ih =>
    have ih' := ih fun x hx => h x (List.mem_cons_of_mem a hx)
    simp only [List.filter_cons, List.length_cons]
    by_cases hp : p a = true
    · have hq : ¬(q a = true) := fun hq => h a (List.mem_cons_self a l) ⟨hp, hq⟩
      rw [if_pos hp, if_neg hq]
      simp only [List.length_cons]
      omega
    · rw [if_neg hp]
      by_cases hq : q a = true
      · rw [if_pos hq]
        simp only [List.length_cons]
        omega
      · rw [if_neg hq]
        omega

theorem mem_of_mem_uniqueFirst {α : Type} [DecidableEq α] (L : List α) (c : α)
    (h : c ∈ uniqueFirst L) : c ∈ L := by
  induction L using uniqueFirst.induct with
  | case1 => simp [uniqueFirst] at h
  | case2 a l ih =>
    rw [uniqueFirst] at h
    rcases List.mem_cons.mp h with h1 | h2
    · simp [h1]
    · exact List.mem_cons_of_mem a (List.mem_of_mem_filter (ih h2))

theorem filter_eq_of_filter_ne {α : Type} [DecidableEq α] (L : List α) (a c : α)
    (hca : c ≠ a) :
    (L.filter fun x => x ≠ a).filter (fun x => x = c) = L.filter (fun x => x = c) := by
  induction L with
  | nil => rfl
  | cons b L ih =>
    simp only [List.filter_cons]
    by_cases hb : b = a
    · have h1 : ¬((fun x => decide (x ≠ a)) b = true) := by simp [hb]
      have h2 : ¬((fun x => decide (x = c)) b = true) := by
        simp only [decide_eq_true_eq]
        exact fun h => hca (hb ▸ h).symm
      rw [if_neg h1, if_neg h2, ih]
    · have h1 : (fun x => decide (x ≠ a)) b = true := by simp [hb]
      rw [if_pos h1, List.filter_cons]
      by_cases hbc : b = c
      · rw [if_pos (by simp [hbc]), if_pos (by simp [hbc]), ih]
      · rw [if_neg (by simp [hbc]), if_neg (by simp [hbc]), ih]

theorem length_filter_eq_add_filter_ne {α : Type} [DecidableEq α] (L : List α) (a : α) :
    (L.filter fun x => x = a).length + (L.filter fun x => x ≠ a).length = L.length := by
  induction L with
  | nil => rfl
  | cons b L ih =>
    simp only [List.filter_cons, List.length_cons]
    by_cases hb : b = a
    · rw [if_pos (by simp [hb]), if_neg (by simp [hb])]
      simp only [List.length_cons]
      omega
    · rw [if_neg (by simp [hb]), if_pos (by simp [hb])]
      simp only [List.length_cons]
      omega

theorem sum_filter_uniqueFirst {α : Type} [DecidableEq α] (L : List α) :
    ((uniqueFirst L).map fun c => (L.filter fun x => x = c).length).sum = L.length := by
  induction L using uniqueFirst.induct with
  | case1 => simp [uniqueFirst]
  | case2 a L' ih =>
    rw [uniqueFirst]
    simp only [List.map_cons, List.sum_cons]
    have hhead : ((a :: L').filter fun x => x = a).length =
        (L'.filter fun x => x = a).length + 1 := by
      simp [List.filter_cons]
    have htail : ((uniqueFirst (L'.filter fun x => x ≠ a)).map fun c =>
        ((a :: L').filter fun x => x = c).length).sum =
        ((uniqueFirst (L'.filter fun x => x ≠ a)).map fun c =>
        ((L'.filter fun x => x ≠ a).filter fun x => x = c).length).sum := by
      apply congrArg
      apply List.map_congr_left
      intro c hc
      have hcm : c ∈ L'.filter fun x => x ≠ a :=
        mem_of_mem_uniqueFirst _ c hc
      have hcne : c ≠ a := by
        have := List.of_mem_filter hcm
        simpa using this
      have hacne : ¬((fun x => decide (x = c)) a = true) := by
        simp only [decide_eq_true_eq]
        exact fun h => hcne h.symm
      rw [List.filter_cons, if_neg hacne, ← filter_eq_of_filter_ne L' a c hcne]
    rw [hhead, htail, ih]
    have := length_filter_eq_add_filter_ne L' a
    simp only [List.length_cons]
    omega

theorem insertDescBy_perm {α : Type} (f : α → Nat) (x : α) (l : List α) :
    (insertDescBy f x l).Perm (x :: l) := by
  induction l with
  | nil => exact List.Perm.refl _
  | cons y l ih =>
    unfold insertDescBy
    split
    · exact List.Perm.refl _
    · exact (List.Perm.cons y ih).trans (List.Perm.swap x y l)

theorem insertDescBy_sorted {α : Type} (f : α → Nat) (x : α) {l : List α}
    (h : l.Pairwise fun a b => f b ≤ f a) :
    (insertDescBy f x l).Pairwise fun a b => f b ≤ f a := by
  induction l with
  | nil => simp [insertDescBy]
  | cons y l ih =>
    rcases List.pairwise_cons.mp h with ⟨hy, hl⟩
    unfold insertDescBy
    split
    · rename_i hlt
      refine List.pairwise_cons.mpr ⟨?_, h⟩
      intro z hz
      rcases List.mem_cons.mp hz with rfl | hz
      · exact Nat.le_of_lt hlt
      · exact le_trans (hy z hz) (Nat.le_of_lt hlt)
    · rename_i hge
      refine List.pairwise_cons.mpr ⟨?_, ih hl⟩
      intro z hz
      have hz' := (insertDescBy_perm f x l).mem_iff.mp hz
      rcases List.mem_cons.mp hz' with rfl | hz'
      · omega
      · exact hy z hz'

theorem insertDescBy_filter {α : Type} (f : α → Nat) (x : α) {l : List α} (k : Nat)
    (h : l.Pairwise fun a b => f b ≤ f a) :
    (insertDescBy f x l).filter (fun y => f y = k) =
      if f x = k then (l.filter fun y => f y = k) ++ [x]
      else l.filter fun y => f y = k := by
  induction l with
  | nil =>
    by_cases hx : f x = k <;> simp [insertDescBy, hx]
  | cons y l ih =>
    rcases List.pairwise_cons.mp h with ⟨hy, hl⟩
    unfold insertDescBy
    split
    · rename_i hlt
      by_cases hx : f x = k
      · have hempty : (y :: l).filter (fun z => decide (f z = k)) = [] := by
          apply List.filter_eq_nil_iff.mpr
          intro z hz
          rcases List.mem_cons.mp hz with rfl | hz
          · simp only [decide_eq_true_eq]
            omega
          · have := hy z hz
            simp only [decide_eq_true_eq]
            omega
        rw [if_pos hx, List.filter_cons, if_pos (by simp [hx]), hempty]
        simp
      · rw [if_neg hx, List.filter_cons, if_neg (by simp [hx])]
    · rename_i hge
      simp only [List.filter_cons, ih hl]
      by_cases hyk : f y = k <;> by_cases hx : f x = k <;> simp [hyk, hx]

theorem foldl_insertDescBy_perm {α : Type} (f : α → Nat) (l acc : List α) :
    (l.foldl (fun acc x => insertDescBy f x acc) acc).Perm (acc ++ l) := by
  induction l generalizing acc with
  | nil => simp
  | cons x l ih =>
    have h1 := ih (insertDescBy f x acc)
    have h2 : (insertDescBy f x acc ++ l).Perm ((x :: acc) ++ l) :=
      List.Perm.append_right l (insertDescBy_perm f x acc)
    have h3 : ((x :: acc) ++ l).Perm (acc ++ x :: l) := by
      simpa using (@List.perm_middle _ x acc l).symm
    exact (h1.trans h2).trans h3

theorem foldl_insertDescBy_sorted {α : Type} (f : α → Nat) (l : List α)
    {acc : List α} (hacc : acc.Pairwise fun a b => f b ≤ f a) :
    (l.foldl (fun acc x => insertDescBy f x acc) acc).Pairwise
      fun a b => f b ≤ f a := by
  induction l generalizing acc with
  | nil => exact hacc
  | cons x l ih => exact ih (insertDescBy_sorted f x hacc)

theorem foldl_insertDescBy_filter {α : Type} (f : α → Nat) (l : List α) (k : Nat)
    {acc : List α} (hacc : acc.Pairwise fun a b => f b ≤ f a) :
    (l.foldl (fun acc x => insertDescBy f x acc) acc).filter (fun y => f y = k) =
      acc.filter (fun y => f y = k) ++ l.filter (fun y => f y = k) := by
  induction l generalizing acc with
  | nil => simp
  | cons x l ih =>
    have h1 := ih (insertDescBy_sorted f x hacc)
    rw [List.foldl_cons, h1, insertDescBy_filter f x k hacc, List.filter_cons]
    by_cases hx : f x = k
    · rw [if_pos hx, if_pos (by simp [hx])]
      simp
    · rw [if_neg hx, if_neg (by simp [hx])]

theorem stableSortDescBy_perm {α : Type} (f : α → Nat) (l : List α) :
    (stableSortDescBy f l).Perm l := by
  simpa [stableSortDescBy] using foldl_insertDescBy_perm f l []

theorem stableSortDescBy_sorted {α : Type} (f : α → Nat) (l : List α) :
    (stableSortDescBy f l).Pairwise fun a b => f b ≤ f a :=
  foldl_insertDescBy_sorted f l List.Pairwise.nil

theorem stableSortDescBy_filter {α : Type} (f : α → Nat) (l : List α) (k : Nat) :
    (stableSortDescBy f l).filter (fun y => f y = k) =
      l.filter (fun y => f y = k) := by
  simpa [stableSortDescBy] using foldl_insertDescBy_filter f l k List.Pairwise.nil

theorem qa_hist_promedio_eq {t : Table} {ws : List String} {qa : Cell}
    {e : QAHistEntry}
    (h : (qa, e) ∈ (get_qa_statistics_complete t ws).historical_por_qa) :
    e.promedio_semanal = qaPromedioSemanal t ws := by
  simp only [get_qa_statistics_complete, List.mem_map] at h
  obtain ⟨qa0, _, heq⟩ := h
  injection heq with h1 h2
  rw [← h2]

theorem rech_acep_le_len (wd : Table) :
    countDecision wd "RECHAZADO" + countDecision wd "APROBADO" ≤ wd.length := by
  apply filter_two_disjoint_length_le
  rintro x _ ⟨h1, h2⟩
  simp only [decide_eq_true_eq] at h1 h2
  rw [h1] at h2
  exact absurd (Cell.str.inj h2) (by decide)

theorem countDecision_le_len (wd : Table) (d : String) :
    countDecision wd d ≤ wd.length :=
  List.length_filter_le _ wd

theorem length_filter_add_length_filter_not {α : Type} (l : List α) (p : α → Bool) :
    (l.filter p).length + (l.filter fun x => ¬ p x).length = l.length := by
  induction l with
  | nil => rfl
  | cons a l ih =>
    simp only [List.filter_cons, List.length_cons]
    by_cases ha : p a = true
    · rw [if_pos ha, if_neg (by simp [ha])]
      simp only [List.length_cons]
      omega
    · rw [if_neg ha, if_pos (by simp [ha])]
      simp only [List.length_cons]
      omega

theorem length_filter_pm_eq (wd : Table) (qa : Cell) (hq : qa.isMissing = false) :
    (wd.filter fun r => r.pm = qa).length =
      (((wd.map fun r => r.pm).filter fun c => ¬ c.isMissing).filter
        fun c => c = qa).length := by
  induction wd with
  | nil => rfl
  | cons r wd ih =>
    simp only [List.map_cons, List.filter_cons]
    by_cases hr : r.pm = qa
    · have hnm : ¬(r.pm.isMissing = true) := by rw [hr, hq]; simp
      rw [if_pos (by simpa using hr), if_pos (by simpa using hnm),
          List.filter_cons, if_pos (by simpa using hr)]
      simpa using ih
    · by_cases hm : r.pm.isMissing = true
      · rw [if_neg (by simpa using hr), if_neg (by simpa using hm)]
        exact ih
      · rw [if_neg (by simpa using hr), if_pos (by simpa using hm),
            List.filter_cons, if_neg (by simpa using hr)]
        exact ih

theorem length_filter_nonmissing_pm (wd : Table) :
    ((wd.map fun r => r.pm).filter fun c => ¬ c.isMissing).length =
      (wd.filter fun r => ¬ r.pm.isMissing).length := by
  induction wd with
  | nil => rfl
  | cons r wd ih =>
    simp only [List.map_cons, List.filter_cons]
    by_cases hm : r.pm.isMissing = true
    · rw [if_neg (by simpa using hm), if_neg (by simpa using hm)]
      exact ih
    · rw [if_pos (by simpa using hm), if_pos (by simpa using hm)]
      simpa using ih

theorem qaWeek_sum_eq_nonmissing (wd : Table) :
    (((pmValues wd).map fun qa => (wd.filter fun r => r.pm = qa).length).sum) =
      (wd.filter fun r => ¬ r.pm.isMissing).length := by
  have hcong : ((pmValues wd).map fun qa => (wd.filter fun r => r.pm = qa).length) =
      ((pmValues wd).map fun qa =>
        (((wd.map fun r => r.pm).filter fun c => ¬ c.isMissing).filter
          fun c => c = qa).length) := by
    apply List.map_congr_left
    intro qa hqa
    have hmem := mem_of_mem_uniqueFirst _ qa hqa
    have hnm : ¬(qa.isMissing = true) := by simpa using List.of_mem_filter hmem
    exact length_filter_pm_eq wd qa (by simpa using hnm)
  rw [hcong]
  simp only [pmValues]
  rw [sum_filter_uniqueFirst ((wd.map fun r => r.pm).filter fun c => ¬ c.isMissing)]
  exact length_filter_nonmissing_pm wd

theorem filter_replicate_of_pos {α : Type} (n : Nat) (x : α) (p : α → Bool)
    (h : p x = true) :
    (List.replicate n x).filter p = List.replicate n x := by
  induction n with
  | zero => rfl
  | succ n ih => simp [List.replicate_succ, List.filter_cons, h, ih]

theorem filter_replicate_of_neg {α : Type} (n : Nat) (x : α) (p : α → Bool)
    (h : ¬(p x = true)) :
    (List.replicate n x).filter p = [] := by
  induction n with
  | zero => rfl
  | succ n ih => simp [List.replicate_succ, List.filter_cons, h, ih]

theorem entry_pct_spec (r n : Nat) (h : r ≤ n) :
    pctRechazo r n = pyRound2 (if 0 < n then (r : ℚ) / (n : ℚ) * 100 else 0) ∧
    (n = 0 → pctRechazo r n = 0) ∧
    0 ≤ pctRechazo r n ∧ pctRechazo r n ≤ 100 := by
  refine ⟨rfl, ?_, pctRechazo_nonneg r n, pctRechazo_le_100 h⟩
  intro h0
  subst h0
  exact pctRechazo_of_zero r

/-! Claim theorems. -/

/-- C6: if no sheet of the input spreadsheet matches the week-partition
naming convention (case-insensitive substring match on the marker
phrase tarjetas semana), loading fails with a hard error and no
table or week list is produced. -/
theorem c6_no_matching_sheet_load_fails (sheets : List (String × List RawRow))
    (h : ∀ s ∈ sheets, matchesWeekSheet s.1 = false) :
    load_all_sheets sheets = Except.error "No objects to concatenate" := by
  unfold load_all_sheets
  have hnil : sheets.filter (fun s => matchesWeekSheet s.1) = [] :=
    List.filter_eq_nil_iff.mpr fun s hs => by simp [h s hs]
  simp [hnil]

/-- Witness for C6 at a concrete two-sheet spreadsheet with no matching
sheet name. -/
theorem c6_witness :
    load_all_sheets [("Resumen", []), ("Hoja de datos", [exRowBlank])] =
      Except.error "No objects to concatenate" :=
  c6_no_matching_sheet_load_fails _ (by decide)

/-- C3: every reviewer's historical weekly average equals the number of
distinct week values present in the table divided by the number of week
partitions loaded, is the same value for every reviewer, and is 0 when
zero week partitions were loaded. -/
theorem c3_reviewer_weekly_average (t : Table) (ws : List String)
    (qa : Cell) (e : QAHistEntry)
    (h : (qa, e) ∈ (get_qa_statistics_complete t ws).historical_por_qa) :
    e.promedio_semanal =
      (if 0 < ws.length then (distinctWeeks t : ℚ) / (ws.length : ℚ) else 0) ∧
    (ws.length = 0 → e.promedio_semanal = 0) ∧
    (∀ qa2 e2, (qa2, e2) ∈ (get_qa_statistics_complete t ws).historical_por_qa →
      e2.promedio_semanal = e.promedio_semanal) := by
  have h1 := qa_hist_promedio_eq h
  refine ⟨h1, ?_, ?_⟩
  · intro h0
    rw [h1]
    simp [qaPromedioSemanal, h0]
  · intro qa2 e2 h2
    rw [qa_hist_promedio_eq h2, h1]

/-- Witness for C3 at a one-row table with reviewer Ana and one loaded
week. -/
theorem c3_witness :
    eExC3.promedio_semanal =
      (if 0 < wsExC3.length then (distinctWeeks tExC3 : ℚ) / (wsExC3.length : ℚ)
       else 0) :=
  (c3_reviewer_weekly_average tExC3 wsExC3 (Cell.str "Ana") eExC3
    (by simp [get_qa_statistics_complete, pmValues, uniqueFirst, tExC3, wsExC3,
              eExC3, countDecision, weekData, qaPromedioSemanal, exRowBlank,
              Cell.isMissing, List.filter_cons])).1

/-- C9: summary generation is deterministic and idempotent: it leaves
the unified table and week list unchanged, and running it a second time
on the state returned by the first run yields an identical summary
object (the summary structures are compared componentwise, covering
keys, values and ordering). -/
theorem c9_generation_idempotent (s : DashState) :
    (generate_all_statistics s).1 = s ∧
    generate_all_statistics ((generate_all_statistics s).1) =
      generate_all_statistics s :=
  ⟨rfl, rfl⟩

/-- C2 evaluated at the failing input: a table whose first row has a
missing platform.  The report counts only the iOS row, has no
Sin especificar key, and counts fewer rows than the table has, because
value_counts drops NaN before the cleaning loop can rename it. -/
theorem c2_platform_report_drops_missing :
    get_platform_report tExC2 = [(Cell.str "iOS", 1)] ∧
    tExC2.length = 2 := by
  constructor
  · simp [get_platform_report, value_counts, uniqueFirst, tExC2, exRowBlank,
          stableSortDescBy, insertDescBy, upsertAssoc, Cell.isMissing]
  · rfl

/-- C4 counterexample: a row whose decision cell holds the non-null
string TAL VEZ keeps it unchanged through normalization, so the
normalized decision is not one of the three categorical values. -/
theorem c4_counterexample :
    (cleanRow { exRowBlank with decision := Cell.str "TAL VEZ" }).decision ∉
      [Cell.str "APROBADO", Cell.str "RECHAZADO", Cell.str "PENDIENTE"] := by
  decide

/-- C4 (amended): after normalization the decision field is never
missing: a missing decision becomes PENDIENTE and a non-missing
decision is preserved unchanged; consequently the field is one of the
three categorical values (APROBADO, RECHAZADO, PENDIENTE, the source
literals for approved, rejected, pending) whenever every non-missing
input decision already is one of them. -/
theorem c4_decision_never_null (r : RawRow) :
    (cleanRow r).decision.isMissing = false ∧
    (r.decision = Cell.missing → (cleanRow r).decision = Cell.str "PENDIENTE") ∧
    (r.decision ≠ Cell.missing → (cleanRow r).decision = r.decision) ∧
    ((r.decision = Cell.missing ∨
        r.decision ∈ [Cell.str "APROBADO", Cell.str "RECHAZADO", Cell.str "PENDIENTE"]) →
      (cleanRow r).decision ∈
        [Cell.str "APROBADO", Cell.str "RECHAZADO", Cell.str "PENDIENTE"]) := by
  cases hd : r.decision <;>
    simp [cleanRow, fillnaCell, Cell.isMissing, hd]

/-- Witness for C4: the all-missing row normalizes to a PENDIENTE
decision. -/
theorem c4_witness :
    (cleanRow exRowBlank).decision = Cell.str "PENDIENTE" :=
  (c4_decision_never_null exRowBlank).2.1 rfl

/-- C5 counterexample: a row whose rejection-count cell holds the
numeric value -5 keeps it through normalization, so a normalized
rejection count can be negative. -/
theorem c5_counterexample :
    (cleanRow { exRowBlank with numRechazos := Cell.num (-5) }).numRechazos =
      Cell.num (-5) ∧ ((-5 : ℚ) < 0) := by
  exact ⟨rfl, by norm_num⟩

/-- C5 (amended): after normalization the rejection count is always a
numeric cell; non-numeric and missing inputs normalize to 0 rather than
raising, numeric inputs pass through unchanged, and the normalized
value is non-negative whenever every numeric input value is
non-negative. -/
theorem c5_rejection_count_coercion (r : RawRow) :
    (∃ q : ℚ, (cleanRow r).numRechazos = Cell.num q) ∧
    (pdToNumeric r.numRechazos = none → (cleanRow r).numRechazos = Cell.num 0) ∧
    (∀ q, pdToNumeric r.numRechazos = some q →
      (cleanRow r).numRechazos = Cell.num q) ∧
    ((∀ q, pdToNumeric r.numRechazos = some q → 0 ≤ q) →
      ∃ q, (cleanRow r).numRechazos = Cell.num q ∧ 0 ≤ q) := by
  cases hn : pdToNumeric r.numRechazos with
  | none =>
    refine ⟨⟨0, by simp [cleanRow, hn]⟩, fun _ => by simp [cleanRow, hn],
      fun q hq => by simp [hn] at hq, fun _ => ⟨0, by simp [cleanRow, hn], le_refl 0⟩⟩
  | some q =>
    refine ⟨⟨q, by simp [cleanRow, hn]⟩, fun h0 => by simp at h0,
      fun q2 hq2 => ?_, fun hpos => ⟨q, by simp [cleanRow, hn], hpos q rfl⟩⟩
    injection hq2 with hq2
    simp [cleanRow, hn, hq2]

/-- Witness for C5: the concrete scenario of the specification, a
rejection-count cell holding the string abc, normalizes to 0. -/
theorem c5_witness :
    (cleanRow { exRowBlank with numRechazos := Cell.str "abc" }).numRechazos =
      Cell.num 0 :=
  (c5_rejection_count_coercion _).2.1 (by decide)

theorem qa_weekly_entry {t : Table} {ws : List String} {semana : String}
    {wk : QAWeekStats}
    (h : (semana, wk) ∈ (get_qa_statistics_complete t ws).weekly) :
    wk = qaWeekStats t semana := by
  simp only [get_qa_statistics_complete, List.mem_map] at h
  obtain ⟨s0, _, heq⟩ := h
  injection heq with h1 h2
  rw [← h2, h1]

/-- C7 counterexample: in a week containing one row with a missing
reviewer, the sum over reviewers of per-reviewer reviewed counts is 0
while the week total reviewed count is 1, so the claimed equality
fails on the code. -/
theorem c7_counterexample :
    ("s1", qaWeekStats tExC7 "s1") ∈
      (get_qa_statistics_complete tExC7 ["s1"]).weekly ∧
    ((qaWeekStats tExC7 "s1").tarjetas_por_qa.map fun p => p.2).sum ≠
      (qaWeekStats tExC7 "s1").total_semana := by
  constructor
  · simp [get_qa_statistics_complete]
  · simp [qaWeekStats, pmValues, uniqueFirst, tExC7, exRowBlank, weekData,
          countDecision, Cell.isMissing, List.filter_cons]

/-- C7 (amended): for every week, the sum over reviewers of the
per-reviewer reviewed counts equals the number of that week's rows
with a non-missing reviewer; the week total counts every row of the
week, including those with a missing reviewer, so the sum plus the
missing-reviewer count equals the total (and the sum equals the total
exactly when the week has no missing-reviewer row). -/
theorem c7_reviewer_sum_amended (t : Table) (ws : List String) (semana : String)
    (wk : QAWeekStats)
    (h : (semana, wk) ∈ (get_qa_statistics_complete t ws).weekly) :
    ((wk.tarjetas_por_qa.map fun p => p.2).sum =
      ((weekData t semana).filter fun r => ¬ r.pm.isMissing).length) ∧
    wk.total_semana = (weekData t semana).length ∧
    (wk.tarjetas_por_qa.map fun p => p.2).sum +
        ((weekData t semana).filter fun r => r.pm.isMissing).length =
      wk.total_semana := by
  have hwk := qa_weekly_entry h
  subst hwk
  have hsum : (((qaWeekStats t semana).tarjetas_por_qa.map fun p => p.2).sum =
      ((weekData t semana).filter fun r => ¬ r.pm.isMissing).length) := by
    simp only [qaWeekStats, List.map_map]
    simpa [Function.comp] using qaWeek_sum_eq_nonmissing (weekData t semana)
  refine ⟨hsum, rfl, ?_⟩
  rw [hsum]
  have hsplit := length_filter_add_length_filter_not (weekData t semana)
    (fun r => r.pm.isMissing)
  show _ = (weekData t semana).length
  omega

/-- Witness for C7 at a one-row table whose row has reviewer Ana. -/
theorem c7_witness :
    ((qaWeekStats tExC3 "s1").tarjetas_por_qa.map fun p => p.2).sum =
      ((weekData tExC3 "s1").filter fun r => ¬ r.pm.isMissing).length :=
  (c7_reviewer_sum_amended tExC3 ["s1"] "s1" (qaWeekStats tExC3 "s1")
    (by simp [get_qa_statistics_complete])).1

/-- C10: in every per-week and historical channel statistic and every
per-developer statistic (historical and weekly), the rejected count
plus the accepted count is at most the reviewed count, because the
RECHAZADO and APROBADO decision filters select disjoint subsets of the
rows counted as reviewed; the three counts are natural numbers, hence
non-negative. -/
theorem c10_rejected_accepted_bounds (t : Table) (ws : List String)
    (channel devType : String) :
    (∀ p ∈ (channelStatisticsComplete t ws channel).weekly,
      p.2.rechazadas + p.2.aceptadas ≤ p.2.revisadas) ∧
    ((channelStatisticsComplete t ws channel).historical.total_rechazadas +
        (channelStatisticsComplete t ws channel).historical.total_aceptadas ≤
      (channelStatisticsComplete t ws channel).historical.total_revisadas) ∧
    (∀ p ∈ (get_dev_statistics t ws devType).1,
      p.2.rechazadas + p.2.aceptadas ≤ p.2.total_tarjetas) ∧
    (∀ d ∈ (get_dev_statistics t ws devType).2, ∀ w ∈ d.2,
      w.2.rechazadas + w.2.aceptadas ≤ w.2.total_tarjetas) := by
  refine ⟨?_, ?_, ?_, ?_⟩
  · intro p hp
    simp only [channelStatisticsComplete, List.mem_map] at hp
    obtain ⟨s, _, heq⟩ := hp
    rw [← heq]
    exact rech_acep_le_len _
  · exact rech_acep_le_len _
  · intro p hp
    have hp' := (stableSortDescBy_perm (fun p => p.2.total_tarjetas)
      (devStatsUnsorted t ws devType)).mem_iff.mp hp
    simp only [devStatsUnsorted, List.mem_map] at hp'
    obtain ⟨dev, _, heq⟩ := hp'
    rw [← heq]
    exact rech_acep_le_len _
  · intro d hd w hw
    simp only [get_dev_statistics, List.mem_map] at hd
    obtain ⟨dev, _, heqd⟩ := hd
    rw [← heqd] at hw
    simp only [devWeeklySummary, List.mem_filter, List.mem_map] at hw
    obtain ⟨⟨s, _, heqw⟩, _⟩ := hw
    rw [← heqw]
    exact rech_acep_le_len _

/-- Witness for C10 at the 32-row Web table. -/
theorem c10_witness :
    (channelWeekStats tExC1 "Web" "s1").rechazadas +
        (channelWeekStats tExC1 "Web" "s1").aceptadas ≤
      (channelWeekStats tExC1 "Web" "s1").revisadas :=
  (c10_rejected_accepted_bounds tExC1 ["s1"] "Web" "web").1
    ("s1", channelWeekStats tExC1 "Web" "s1")
    (by simp [channelStatisticsComplete])

/-- C1 counterexample: on a week with 32 Web cards and 1 rejected, the
ratio is 3.125 percent, and the source (Python round, half to even)
reports 3.12 while rounding half-up as claimed would give 3.13, so the
reported percentage does not equal the half-up rounding. -/
theorem c1_counterexample :
    ("s1", channelWeekStats tExC1 "Web" "s1") ∈
      (get_web_statistics_complete tExC1 ["s1"]).weekly ∧
    (channelWeekStats tExC1 "Web" "s1").revisadas = 32 ∧
    (channelWeekStats tExC1 "Web" "s1").rechazadas = 1 ∧
    (channelWeekStats tExC1 "Web" "s1").porcentaje_rechazo ≠
      specHalfUpRound2 (((channelWeekStats tExC1 "Web" "s1").rechazadas : ℚ) /
        ((channelWeekStats tExC1 "Web" "s1").revisadas : ℚ) * 100) := by
  have h1 : weekData tExC1 "s1" = tExC1 := by
    show tExC1.filter _ = tExC1
    unfold tExC1
    rw [List.filter_cons, if_pos (by decide),
        filter_replicate_of_pos _ _ _ (by decide)]
  have h2 : channelData tExC1 "Web" = tExC1 := by
    show tExC1.filter _ = tExC1
    unfold tExC1
    rw [List.filter_cons, if_pos (by decide),
        filter_replicate_of_pos _ _ _ (by decide)]
  have hwd : channelData (weekData tExC1 "s1") "Web" = tExC1 := by rw [h1, h2]
  have hrech : countDecision tExC1 "RECHAZADO" = 1 := by
    show (tExC1.filter _).length = 1
    unfold tExC1
    rw [List.filter_cons, if_pos (by decide),
        filter_replicate_of_neg _ _ _ (by decide)]
    rfl
  have hlen : tExC1.length = 32 := by simp [tExC1]
  have hst : channelWeekStats tExC1 "Web" "s1" =
      { revisadas := 32, rechazadas := 1,
        aceptadas := countDecision tExC1 "APROBADO",
        porcentaje_rechazo := pctRechazo 1 32 } := by
    unfold channelWeekStats
    rw [hwd]
    dsimp only
    rw [hrech, hlen]
  refine ⟨?_, ?_, ?_, ?_⟩
  · simp [get_web_statistics_complete, channelStatisticsComplete]
  · rw [hst]
  · rw [hst]
  · rw [hst]
    show pctRechazo 1 32 ≠ specHalfUpRound2 ((1 : ℚ) / (32 : ℚ) * 100)
    norm_num [pctRechazo, pyRound2, roundHalfEven, specHalfUpRound2, roundHalfUp]

/-- C1 (amended): for every channel, week and developer, the reported
rejection percentage equals the source rounding (Python round, round
half to even at 2 decimals) of rejected/reviewed*100, is 0 when the
reviewed count is 0 (never an error), and always lies in [0, 100]. -/
theorem c1_rejection_percentage (t : Table) (ws : List String)
    (channel devType : String) :
    (∀ p ∈ (channelStatisticsComplete t ws channel).weekly,
      p.2.porcentaje_rechazo = pyRound2 (if 0 < p.2.revisadas then
        (p.2.rechazadas : ℚ) / (p.2.revisadas : ℚ) * 100 else 0) ∧
      (p.2.revisadas = 0 → p.2.porcentaje_rechazo = 0) ∧
      0 ≤ p.2.porcentaje_rechazo ∧ p.2.porcentaje_rechazo ≤ 100) ∧
    ((channelStatisticsComplete t ws channel).historical.porcentaje_rechazo =
      pyRound2 (if 0 < (channelStatisticsComplete t ws channel).historical.total_revisadas then
        ((channelStatisticsComplete t ws channel).historical.total_rechazadas : ℚ) /
          ((channelStatisticsComplete t ws channel).historical.total_revisadas : ℚ) * 100
      else 0) ∧
      0 ≤ (channelStatisticsComplete t ws channel).historical.porcentaje_rechazo ∧
      (channelStatisticsComplete t ws channel).historical.porcentaje_rechazo ≤ 100) ∧
    (∀ p ∈ (get_dev_statistics t ws devType).1,
      p.2.porcentaje_rechazo = pyRound2 (if 0 < p.2.total_tarjetas then
        (p.2.rechazadas : ℚ) / (p.2.total_tarjetas : ℚ) * 100 else 0) ∧
      (p.2.total_tarjetas = 0 → p.2.porcentaje_rechazo = 0) ∧
      0 ≤ p.2.porcentaje_rechazo ∧ p.2.porcentaje_rechazo ≤ 100) ∧
    (∀ d ∈ (get_dev_statistics t ws devType).2, ∀ w ∈ d.2,
      w.2.porcentaje_rechazo = pyRound2 (if 0 < w.2.total_tarjetas then
        (w.2.rechazadas : ℚ) / (w.2.total_tarjetas : ℚ) * 100 else 0) ∧
      (w.2.total_tarjetas = 0 → w.2.porcentaje_rechazo = 0) ∧
      0 ≤ w.2.porcentaje_rechazo ∧ w.2.porcentaje_rechazo ≤ 100) := by
  refine ⟨?_, ?_, ?_, ?_⟩
  · intro p hp
    simp only [channelStatisticsComplete, List.mem_map] at hp
    obtain ⟨s, _, heq⟩ := hp
    rw [← heq]
    exact entry_pct_spec _ _ (countDecision_le_len _ _)
  · refine ⟨rfl, ?_, ?_⟩
    · exact pctRechazo_nonneg _ _
    · exact pctRechazo_le_100 (countDecision_le_len _ _)
  · intro p hp
    have hp' := (stableSortDescBy_perm (fun p => p.2.total_tarjetas)
      (devStatsUnsorted t ws devType)).mem_iff.mp hp
    simp only [devStatsUnsorted, List.mem_map] at hp'
    obtain ⟨dev, _, heq⟩ := hp'
    rw [← heq]
    exact entry_pct_spec _ _ (countDecision_le_len _ _)
  · intro d hd w hw
    simp only [get_dev_statistics, List.mem_map] at hd
    obtain ⟨dev, _, heqd⟩ := hd
    rw [← heqd] at hw
    simp only [devWeeklySummary, List.mem_filter, List.mem_map] at hw
    obtain ⟨⟨s, _, heqw⟩, _⟩ := hw
    rw [← heqw]
    exact entry_pct_spec _ _ (countDecision_le_len _ _)

/-- Witness for C1 at a one-row table whose row has no channel, so the
Web week statistics have zero reviewed cards and percentage 0. -/
theorem c1_witness :
    (channelWeekStats tExC7 "Web" "s1").porcentaje_rechazo =
      pyRound2 (if 0 < (channelWeekStats tExC7 "Web" "s1").revisadas then
        ((channelWeekStats tExC7 "Web" "s1").rechazadas : ℚ) /
          ((channelWeekStats tExC7 "Web" "s1").revisadas : ℚ) * 100 else 0) ∧
    ((channelWeekStats tExC7 "Web" "s1").revisadas = 0 →
      (channelWeekStats tExC7 "Web" "s1").porcentaje_rechazo = 0) ∧
    0 ≤ (channelWeekStats tExC7 "Web" "s1").porcentaje_rechazo ∧
    (channelWeekStats tExC7 "Web" "s1").porcentaje_rechazo ≤ 100 :=
  (c1_rejection_percentage tExC7 ["s1"] "Web" "web").1
    ("s1", channelWeekStats tExC7 "Web" "s1")
    (by simp [channelStatisticsComplete])

/-- C8: for each channel, the developer statistics are a stable
descending sort of the per-developer entries by historical total card
count: the output is sorted so that a larger total always precedes a
smaller one, it is a permutation of the unsorted entries (which are
built in first-appearance order of the developers in the source data),
and for every total value the entries carrying that total appear in
exactly their source order. -/
theorem c8_dev_ranking_stable_desc (t : Table) (ws : List String)
    (devType : String) :
    ((get_dev_statistics t ws devType).1.Pairwise fun a b =>
      b.2.total_tarjetas ≤ a.2.total_tarjetas) ∧
    ((get_dev_statistics t ws devType).1.Perm (devStatsUnsorted t ws devType)) ∧
    (∀ k, (get_dev_statistics t ws devType).1.filter
        (fun p => p.2.total_tarjetas = k) =
      (devStatsUnsorted t ws devType).filter fun p => p.2.total_tarjetas = k) := by
  refine ⟨?_, ?_, ?_⟩
  · exact stableSortDescBy_sorted (fun p => p.2.total_tarjetas)
      (devStatsUnsorted t ws devType)
  · exact stableSortDescBy_perm (fun p => p.2.total_tarjetas)
      (devStatsUnsorted t ws devType)
  · intro k
    exact stableSortDescBy_filter (fun p => p.2.total_tarjetas)
      (devStatsUnsorted t ws devType) k
